import Mathlib

/-!
Shallow embedding of the TrafficAI v6 intersection simulator (app.js):
phase catalog and `phaseAllows`, geometry helpers, the deterministic
seeded spawner `TrafficMaster`, the `TrafficLight` signal state machine,
the per-vehicle motion engine of `Simulation` (approach / turning / exit),
and the `_callAI` timing-decision core.  Coordinates and times are
rationals; JS machine arithmetic that matters (the 32-bit LCG, `Math.round`)
is modelled explicitly.
-/

namespace TrafficAI

/-! ## Configuration constants (CONFIG in app.js) -/

def CANVAS_W : ℚ := 520
def LANE_W : ℚ := 20
def N_LANES : ℕ := 3
def BOX_HALF : ℚ := 56
def CAR_L : ℚ := 17
def CAR_W : ℚ := 10
def CAR_GAP : ℚ := 5
def CAR_SPD : ℚ := 8/5
def FIXED_GREEN : ℚ := 15
def YELLOW_DUR : ℚ := 3
def ALL_RED_DUR : ℚ := 1
def SPAWN_RATE : ℚ := 1/250
def LCG_SEED : ℕ := 1337
def MID : ℚ := CANVAS_W / 2
def RH : ℚ := (N_LANES : ℚ) * LANE_W

/-- JavaScript `Math.round`: round half toward positive infinity. -/
def jsRound (q : ℚ) : ℤ := ⌊q + 1/2⌋

/-! ## Arms, movements, phases -/

/-- The four approach arms (directions of travel). -/
inductive Dir | north | south | east | west
deriving DecidableEq, Repr, BEq, Fintype

/-- The three movements; determined by lane index. -/
inductive Move | left | straight | right
deriving DecidableEq, Repr, BEq, Fintype

/-- The ten phase keys of `PH` (4 single-arm + 6 paired-axis). -/
inductive Phase | n | e | s | w | ns_s | ns_l | ns_r | ew_s | ew_l | ew_r
deriving DecidableEq, Repr, BEq, Fintype

/-- OPP_D map. -/
def oppD : Dir → Dir
  | .north => .south | .south => .north | .east => .west | .west => .east

/-- LEFT_D map. -/
def leftD : Dir → Dir
  | .north => .west | .west => .south | .south => .east | .east => .north

/-- RIGHT_D map. -/
def rightD : Dir → Dir
  | .north => .east | .east => .south | .south => .west | .west => .north

/-- LANE_MOVE: lane 0 = left, lane 1 = straight, lane 2 = right. -/
def LANE_MOVE : Fin 3 → Move
  | 0 => .left | 1 => .straight | 2 => .right

/-- FIXED_PHASE_SEQ: the clockwise one-arm rotation. -/
def FIXED_PHASE_SEQ : List Phase := [.n, .e, .s, .w]

/-- ALL_PHASES, in source order. -/
def ALL_PHASES : List Phase :=
  [.n, .e, .s, .w, .ns_s, .ns_l, .ns_r, .ew_s, .ew_l, .ew_r]

/-- PHASE_NUM_MAP: numeric API id (1-10) to phase key. -/
def phaseNumMap (i : ℤ) : Option Phase :=
  if i = 1 then some .n else if i = 2 then some .e
  else if i = 3 then some .s else if i = 4 then some .w
  else if i = 5 then some .ns_s else if i = 6 then some .ns_l
  else if i = 7 then some .ns_r else if i = 8 then some .ew_s
  else if i = 9 then some .ew_l else if i = 10 then some .ew_r
  else none

/-- Numeric API id of a phase key (inverse of `phaseNumMap`). -/
def phaseIdOf : Phase → ℤ
  | .n => 1 | .e => 2 | .s => 3 | .w => 4
  | .ns_s => 5 | .ns_l => 6 | .ns_r => 7
  | .ew_s => 8 | .ew_l => 9 | .ew_r => 10

/-- Whether an arm is on the north-south axis. -/
def isNS (d : Dir) : Bool := d == .north || d == .south

/-- Two arms are perpendicular when they are on different axes. -/
def perp (a b : Dir) : Bool := isNS a != isNS b

/-- Whether a phase is one of the four single-arm phases. -/
def isSingleArm (ph : Phase) : Bool :=
  ph == .n || ph == .e || ph == .s || ph == .w

/-- The source's `phaseAllows(ph, dir, move)` from app.js: true if the movement is green.
Single-arm phases additionally turn every other arm's left lane green. -/
def phaseAllows (ph : Phase) (dir : Dir) (move : Move) : Bool :=
  if ph == .n then (dir == .north) || (move == .left && dir != .north) else
  if ph == .e then (dir == .east) || (move == .left && dir != .east) else
  if ph == .s then (dir == .south) || (move == .left && dir != .south) else
  if ph == .w then (dir == .west) || (move == .left && dir != .west) else
  let ns := dir == .north || dir == .south
  let ew := dir == .east || dir == .west
  if ph == .ns_s then ns && move == .straight else
  if ph == .ns_l then ns && move == .left else
  if ph == .ns_r then ns && move == .right else
  if ph == .ew_s then ew && move == .straight else
  if ph == .ew_l then ew && move == .left else
  if ph == .ew_r then ew && move == .right else
  false

/-! ## Geometry helpers -/

/-- A 2-D point on the canvas. -/
structure Point where
  x : ℚ
  y : ℚ
deriving DecidableEq, Repr

/-- The source's `laneX(dir, lane)`: approach-lane x for north/south arms. -/
def laneX (dir : Dir) (lane : Fin 3) : ℚ :=
  let off := ((N_LANES : ℚ) - (lane : ℕ) - 1/2) * LANE_W
  if dir == .north then MID - off else MID + off

/-- The source's `laneY(dir, lane)`: approach-lane y for east/west arms. -/
def laneY (dir : Dir) (lane : Fin 3) : ℚ :=
  let off := ((N_LANES : ℚ) - (lane : ℕ) - 1/2) * LANE_W
  if dir == .east then MID - off else MID + off

/-- The source's `exitLaneX(dir, lane)`: exit-lane x for north/south exits.  A "global"
exit lane (3..5) is normalised to a local index (0..2); the source also
receives negative lane values from `exitLaneMap`, kept verbatim here. -/
def exitLaneX (dir : Dir) (lane : ℤ) : ℚ :=
  let i : ℤ := if lane ≥ (N_LANES : ℤ) then lane - (N_LANES : ℤ) else lane
  let off := ((i : ℚ) + 1/2) * LANE_W
  if dir == .north then MID + off else MID - off

/-- The source's `exitLaneY(dir, lane)`: exit-lane y for east/west exits. -/
def exitLaneY (dir : Dir) (lane : ℤ) : ℚ :=
  let i : ℤ := if lane ≥ (N_LANES : ℤ) then lane - (N_LANES : ℤ) else lane
  let off := ((i : ℚ) + 1/2) * LANE_W
  if dir == .east then MID - off else MID + off

/-- The source's `spawnPos(dir, lane)`: off-canvas spawn point along the approach axis. -/
def spawnPos (dir : Dir) (lane : Fin 3) : Point :=
  let far := CANVAS_W + 30
  match dir with
  | .north => ⟨laneX .north lane, far⟩
  | .south => ⟨laneX .south lane, -30⟩
  | .east => ⟨-30, laneY .east lane⟩
  | .west => ⟨far, laneY .west lane⟩

/-- The stop-line value of `stopCoord(dir)` along the arm's travel axis
(`m = BOX_HALF + CAR_L*0.5 + 3`). -/
def stopCoordVal (dir : Dir) : ℚ :=
  let m := BOX_HALF + CAR_L * (1/2) + 3
  match dir with
  | .north => MID + m
  | .south => MID - m
  | .east => MID - m
  | .west => MID + m

/-! ## Exit mapping and Bézier turn paths -/

/-- The source's `exitDirMap` in `buildPath`: entry arm and lane (0=L,1=S,2=R) to exit arm. -/
def exitDirMap (dir : Dir) : Fin 3 → Dir :=
  match dir with
  | .north => fun l => [Dir.west, Dir.north, Dir.east].get l
  | .east => fun l => [Dir.north, Dir.east, Dir.south].get l
  | .south => fun l => [Dir.east, Dir.south, Dir.west].get l
  | .west => fun l => [Dir.south, Dir.west, Dir.north].get l

/-- The source's `exitLaneMap` in `buildPath`: entry arm and lane to (signed) exit lane. -/
def exitLaneMap (dir : Dir) : Fin 3 → ℤ :=
  match dir with
  | .north => fun l => [(2 : ℤ), -2, 3].get l
  | .east => fun l => [(-3 : ℤ), 4, -1].get l
  | .south => fun l => [(2 : ℤ), -2, 3].get l
  | .west => fun l => [(-3 : ℤ), 4, -1].get l

/-- A cubic Bézier turning path. -/
structure Path where
  p0 : Point
  p1 : Point
  p2 : Point
  p3 : Point
deriving DecidableEq, Repr

/-- The source's `bezAt(path, t)`: point on the cubic Bézier curve. -/
def bezAt (p : Path) (t : ℚ) : Point :=
  let m := 1 - t
  ⟨m*m*m*p.p0.x + 3*m*m*t*p.p1.x + 3*m*t*t*p.p2.x + t*t*t*p.p3.x,
   m*m*m*p.p0.y + 3*m*m*t*p.p1.y + 3*m*t*t*p.p2.y + t*t*t*p.p3.y⟩

/-! ## Vehicle -/

/-- Lifecycle phase of a vehicle. -/
inductive VPhase | approach | turning | exit
deriving DecidableEq, Repr, BEq

/-- A vehicle (class `Vehicle` plus the fields `buildPath`/`_turn` set on it).
The source initialises `turnPath`/`exitDir`/`exitLane` to `null` and never
reads them before `buildPath` assigns them; the embedding initialises them
with the spawn point's degenerate path and the entry arm instead. -/
structure Veh where
  dir : Dir
  lane : Fin 3
  move : Move
  x : ℚ
  y : ℚ
  phase : VPhase
  stopped : Bool
  waiting : Bool
  waitSec : ℚ
  done : Bool
  turnT : ℚ
  turnPath : Path
  pLen : ℚ
  exitDir : Dir
  exitLane : ℤ
deriving DecidableEq, Repr

/-- The `Vehicle` constructor: spawn at `spawnPos`, movement from lane. -/
def mkVeh (dir : Dir) (lane : Fin 3) : Veh :=
  let pos := spawnPos dir lane
  { dir := dir, lane := lane, move := LANE_MOVE lane
    x := pos.x, y := pos.y
    phase := .approach, stopped := false, waiting := false
    waitSec := 0, done := false
    turnT := 0, turnPath := ⟨pos, pos, pos, pos⟩, pLen := 1
    exitDir := dir, exitLane := 0 }

/-- The source's `pastStop(v)`: the front bumper has reached or passed the stop line. -/
def pastStop (v : Veh) : Bool :=
  let s := stopCoordVal v.dir
  let half := CAR_L * (1/2)
  match v.dir with
  | .north => decide (v.y - half ≤ s)
  | .south => decide (v.y + half ≥ s)
  | .east => decide (v.x + half ≥ s)
  | .west => decide (v.x - half ≤ s)

/-- The source's `buildPath(v)`: choose exit arm and exit lane, store them on the vehicle,
and build the cubic turn path toward the point just outside the box. -/
def buildPath (v : Veh) : Veh × Path :=
  let exDir := exitDirMap v.dir v.lane
  let exLane := exitLaneMap v.dir v.lane
  let v' := { v with exitDir := exDir, exitLane := exLane }
  let p0 : Point := ⟨v.x, v.y⟩
  let edge := BOX_HALF + 1
  let p3 : Point :=
    match exDir with
    | .north => ⟨exitLaneX .north exLane, MID - edge⟩
    | .south => ⟨exitLaneX .south exLane, MID + edge⟩
    | .east => ⟨MID + edge, exitLaneY .east exLane⟩
    | .west => ⟨MID - edge, exitLaneY .west exLane⟩
  if v.move == .straight then
    if v.dir == .north || v.dir == .south then
      let dy := p3.y - p0.y
      (v', ⟨p0, ⟨p0.x, p0.y + dy * (33/100)⟩, ⟨p3.x, p0.y + dy * (66/100)⟩, p3⟩)
    else
      let dx := p3.x - p0.x
      (v', ⟨p0, ⟨p0.x + dx * (33/100), p0.y⟩, ⟨p0.x + dx * (66/100), p3.y⟩, p3⟩)
  else
    let r := BOX_HALF * (3/4)
    let c : Point :=
      match v.dir, exDir with
      | .north, .west => ⟨MID - r, MID + r⟩
      | .north, .east => ⟨MID + r, MID + r⟩
      | .south, .east => ⟨MID + r, MID - r⟩
      | .south, .west => ⟨MID - r, MID - r⟩
      | .east, .south => ⟨MID - r, MID + r⟩
      | .east, .north => ⟨MID - r, MID - r⟩
      | .west, .north => ⟨MID + r, MID - r⟩
      | .west, .south => ⟨MID + r, MID + r⟩
      | _, _ => ⟨MID, MID⟩
    let p1 : Point := ⟨p0.x + (c.x - p0.x) * (3/5), p0.y + (c.y - p0.y) * (3/5)⟩
    let p2 : Point := ⟨p3.x + (c.x - p3.x) * (3/5), p3.y + (c.y - p3.y) * (3/5)⟩
    (v', ⟨p0, p1, p2, p3⟩)

/-! ## TrafficMaster — deterministic seeded spawner -/

/-- An emitted arrival event `{dir, lane}`. -/
structure TMEvent where
  dir : Dir
  lane : ℕ
deriving DecidableEq, Repr

/-- A scheduled queue entry `{time, dir, lane}`. -/
structure QEntry where
  time : ℚ
  dir : Dir
  lane : ℕ
deriving DecidableEq, Repr

/-- The `TrafficMaster` state: LCG seed, scheduled queue, internal clock. -/
structure TM where
  seed : ℕ
  queue : List QEntry
  t : ℚ
deriving DecidableEq, Repr

/-- The `TrafficMaster` constructor. -/
def TM.init : TM := ⟨LCG_SEED, [], 0⟩

/-- One step of `_rng`'s Knuth LCG on the 32-bit seed
(`imul` + unsigned shift = arithmetic mod 2^32). -/
def lcgNext (s : ℕ) : ℕ := (s * 1664525 + 1013904223) % 4294967296

/-- The uniform value in [0,1) returned by `_rng` after updating the seed. -/
def rngVal (s : ℕ) : ℚ := (lcgNext s : ℚ) / 4294967296

/-- The `while` loop of `tick` draining scheduled events whose time arrived. -/
def drainQueue (t : ℚ) : List QEntry → List QEntry × List TMEvent
  | [] => ([], [])
  | q :: rest =>
    if q.time ≤ t then
      let (q', evs) := drainQueue t rest
      (q', ⟨q.dir, q.lane⟩ :: evs)
    else (q :: rest, [])

/-- All (dir, lane) pairs in the order of `tick`'s nested loops. -/
def dirLanePairs : List (Dir × ℕ) :=
  [Dir.north, Dir.south, Dir.east, Dir.west].flatMap fun d =>
    [0, 1, 2].map fun l => (d, l)

/-- The background-spawn loop of `tick`: one LCG draw per (dir, lane). -/
def bgSpawns (seed : ℕ) : ℕ × List TMEvent :=
  dirLanePairs.foldl
    (fun acc dl =>
      let s' := lcgNext acc.1
      if rngVal acc.1 < SPAWN_RATE then (s', acc.2 ++ [⟨dl.1, dl.2⟩])
      else (s', acc.2))
    (seed, [])

/-- The source's `TrafficMaster.tick(dt)`: advance the clock, drain due scheduled events,
then emit background arrivals from the LCG. -/
def TM.tick (m : TM) (dt : ℚ) : TM × List TMEvent :=
  let t' := m.t + dt
  let (q', drained) := drainQueue t' m.queue
  let (seed', bg) := bgSpawns m.seed
  (⟨seed', q', t'⟩, drained ++ bg)

/-- Stable insertion into a time-sorted list (`_sort`'s comparator is
`a.time - b.time`; JS `Array.prototype.sort` is stable). -/
def insertByTime (e : QEntry) : List QEntry → List QEntry
  | [] => [e]
  | x :: xs => if e.time < x.time then e :: x :: xs else x :: insertByTime e xs

/-- The source's `_sort()`: stable sort of the queue by ascending time. -/
def sortQueue (q : List QEntry) : List QEntry :=
  q.foldr insertByTime []

/-- The source's `injectDir(dir)`: one event per lane, staggered 0.4 s apart (+0.05 s). -/
def TM.injectDir (m : TM) (dir : Dir) : TM :=
  let added := ([0, 1, 2] : List ℕ).map fun (lane : ℕ) =>
    (⟨m.t + (lane : ℚ) * (2/5) + 1/20, dir, lane⟩ : QEntry)
  { m with queue := sortQueue (m.queue ++ added) }

/-- The `'all'`-or-single-arm argument of `bulkAdd`. -/
inductive BulkDir | all | one (d : Dir)
deriving DecidableEq, Repr

/-- The source's `bulkAdd(dir, n)`: n events per lane per selected arm, staggered. -/
def TM.bulkAdd (m : TM) (dir : BulkDir) (n : ℕ) : TM :=
  let dirs := match dir with
    | .all => [Dir.north, Dir.south, Dir.east, Dir.west]
    | .one d => [d]
  let added := dirs.flatMap fun d =>
    (List.range n).flatMap fun i =>
      ([0, 1, 2] : List ℕ).map fun (lane : ℕ) =>
        (⟨m.t + (i : ℚ) * (1/2) + (lane : ℚ) * (3/20), d, lane⟩ : QEntry)
  { m with queue := sortQueue (m.queue ++ added) }

/-- A call in the `TrafficMaster` driver sequence. -/
inductive TMCall
  | tick (dt : ℚ)
  | injectDir (d : Dir)
  | bulkAdd (d : BulkDir) (n : ℕ)

/-- Apply one call; `tick` produces an event list, the others none. -/
def TM.step (m : TM) : TMCall → TM × List (List TMEvent)
  | .tick dt => let (m', evs) := m.tick dt; (m', [evs])
  | .injectDir d => (m.injectDir d, [])
  | .bulkAdd d n => (m.bulkAdd d n, [])

/-- Run a call sequence, collecting the event list of every `tick` call. -/
def TM.run (m : TM) : List TMCall → TM × List (List TMEvent)
  | [] => (m, [])
  | c :: cs =>
    let (m', out) := m.step c
    let (m'', outs) := m'.run cs
    (m'', out ++ outs)

/-! ## TrafficLight — signal state machine -/

/-- Sub-phase of the controller. -/
inductive SubPhase | green | yellow | allred
deriving DecidableEq, Repr, BEq

/-- The `TrafficLight` state (both modes share `FIXED_PHASE_SEQ`). -/
structure TL where
  subPhase : SubPhase
  timer : ℚ
  seqIdx : ℕ
  phaseKey : Phase
  greenDur : Phase → ℚ
  nextOverride : Option Phase

/-- The `TrafficLight` constructor: green on phase `n`, all durations 15 s. -/
def TL.init : TL :=
  { subPhase := .green, timer := 0, seqIdx := 0, phaseKey := .n
    greenDur := fun _ => FIXED_GREEN, nextOverride := none }

/-- The source's `canGo(dir, move)`: green sub-phase and the phase predicate holds. -/
def TL.canGo (l : TL) (dir : Dir) (move : Move) : Bool :=
  l.subPhase == .green && phaseAllows l.phaseKey dir move

/-- The sub-phase duration used by `tick` and `remaining`. -/
def TL.curDur (l : TL) : ℚ :=
  match l.subPhase with
  | .green => l.greenDur l.phaseKey
  | .yellow => YELLOW_DUR
  | .allred => ALL_RED_DUR

/-- The source's `TrafficLight.tick(dt)`: advance the timer; on expiry cycle
green → yellow → all-red → next green, firing `onPhaseEnd` (returned as the
optional phase key) at the yellow → all-red transition. -/
def TL.tick (l : TL) (dt : ℚ) : TL × Option Phase :=
  let timer := l.timer + dt
  if timer < l.curDur then ({ l with timer := timer }, none)
  else
    match l.subPhase with
    | .green => ({ l with timer := 0, subPhase := .yellow }, none)
    | .yellow => ({ l with timer := 0, subPhase := .allred }, some l.phaseKey)
    | .allred =>
      match l.nextOverride with
      | some k =>
        let idx := FIXED_PHASE_SEQ.indexOf k
        let l1 := { l with timer := 0, phaseKey := k, nextOverride := none
                           subPhase := SubPhase.green }
        (if idx < FIXED_PHASE_SEQ.length then { l1 with seqIdx := idx } else l1,
         none)
      | none =>
        let i := (l.seqIdx + 1) % FIXED_PHASE_SEQ.length
        ({ l with timer := 0, seqIdx := i
                  phaseKey := FIXED_PHASE_SEQ.getD i Phase.n
                  subPhase := SubPhase.green }, none)

/-- The `phaseId` argument of `setNextPhase`: a numeric id, or a string that
is either a known phase key or unknown. -/
inductive PhaseArg
  | num (i : ℤ)
  | str (s : Option Phase)

/-- Resolution of `phaseId` to a phase key (`PHASE_NUM_MAP[phaseId]` for
numbers, `ALL_PHASES.includes` for strings). -/
def resolvePhase : PhaseArg → Option Phase
  | .num i => phaseNumMap i
  | .str s => s

/-- The `duration` argument as seen by `Number(duration)`: `none` models a
value whose conversion is NaN (non-numeric). -/
def numberOr15 : Option ℚ → ℚ
  | none => FIXED_GREEN
  | some d => if d = 0 then FIXED_GREEN else d

/-- The source's `setNextPhase(phaseId, duration)`: reject unknown ids; clamp the rounded
duration to [5, 60]; store it and record the pending override. -/
def TL.setNextPhase (l : TL) (phaseId : PhaseArg) (duration : Option ℚ) : TL :=
  match resolvePhase phaseId with
  | none => l
  | some phKey =>
    let d : ℤ := max 5 (min 60 (jsRound (numberOr15 duration)))
    { l with greenDur := fun p => if p = phKey then (d : ℚ) else l.greenDur p
             nextOverride := some phKey }

/-- A call in a `TrafficLight` driver sequence. -/
inductive TLCall
  | tick (dt : ℚ)
  | setNext (phaseId : PhaseArg) (duration : Option ℚ)

/-- Apply a sequence of `tick`/`setNextPhase` calls. -/
def TL.run (l : TL) : List TLCall → TL
  | [] => l
  | .tick dt :: cs => ((l.tick dt).1).run cs
  | .setNext p d :: cs => (l.setNextPhase p d).run cs

/-! ## The `_callAI` decision core -/

/-- Per-(arm,movement) approach-queue counts (`laneQueues()`). -/
def LaneQ : Type := Dir → Move → ℕ

/-- The `demand` aggregation for single-arm phase ids 1-4
(straight + right + 0.25 × left); ids 5-10 are kept at 0. -/
def demand (q : LaneQ) (i : ℤ) : ℚ :=
  if i = 1 then (q .north .straight : ℚ) + q .north .right + (1/4) * q .north .left
  else if i = 2 then (q .east .straight : ℚ) + q .east .right + (1/4) * q .east .left
  else if i = 3 then (q .south .straight : ℚ) + q .south .right + (1/4) * q .south .left
  else if i = 4 then (q .west .straight : ℚ) + q .west .right + (1/4) * q .west .left
  else 0

/-- The source's `curId`: numeric id of the phase that just ended (`0` when the eager
start-of-run invocation passes `null`). -/
def curIdOf : Option Phase → ℤ
  | none => 0
  | some ph => phaseIdOf ph

/-- The source's `fixedNextId`: the next id in the clockwise rotation `[1,2,3,4]`,
defaulting to `1 → 2` when the current id is not in the rotation. -/
def fixedNextId (curId : ℤ) : ℤ :=
  if curId = 1 then 2 else if curId = 2 then 3
  else if curId = 3 then 4 else if curId = 4 then 1
  else 2

/-- Integer clamp `clamp(n, lo, hi)`. -/
def clampI (n lo hi : ℤ) : ℤ := max lo (min hi n)

/-- The heuristic target duration: `clamp(round(8 + load*1.8), 5, 45)`. -/
def heurDur (load : ℚ) : ℤ := clampI (jsRound (8 + load * (9/5))) 5 45

/-- The source's `targetDur` of one `_callAI` invocation. -/
def targetDurOf (q : LaneQ) (ctx : Option Phase) : ℤ :=
  heurDur (demand q (fixedNextId (curIdOf ctx)))

/-- The advisory response body as used by `_callAI`: `duration` is `none`
when `Number(data.duration)` is NaN (missing or non-numeric);
`next_phase` is carried but never read by the decision. -/
structure AIResp where
  duration : Option ℚ
  improved_over_fixed : Option Bool
  next_phase : Option ℤ
deriving Repr

/-- Outcome of the remote consultation: unconfigured URL, transport/HTTP
error (including timeout), or a parsed response. -/
inductive AIOutcome
  | noUrl
  | transportErr
  | ok (resp : AIResp)

/-- The pure decision core of `Simulation._callAI`: which
`(phaseId, duration)` pair is passed to `setNextPhase`. -/
def callAIDecision (q : LaneQ) (ctx : Option Phase) (res : AIOutcome) :
    ℤ × ℤ :=
  let next := fixedNextId (curIdOf ctx)
  let fixedDur : ℤ := 15
  let target := targetDurOf q ctx
  match res with
  | .noUrl => (next, target)
  | .transportErr => (next, target)
  | .ok resp =>
    match resp.duration with
    | none => (next, target)
    | some raw =>
      let aiDur := clampI (jsRound (if raw = 0 then FIXED_GREEN else raw)) 5 45
      let improved :=
        match resp.improved_over_fixed with
        | some b => b
        | none => decide (|aiDur - target| < |fixedDur - target|)
      if improved then (next, aiDur) else (next, fixedDur)

/-! ## Simulation — per-vehicle motion engine

`bezLen` in the source approximates the curve's arc length by sampling 24
segments and summing `Math.sqrt` distances; that value is irrational in
general, so the embedding abstracts it as a parameter `bezLenF` (every
theorem below holds for an arbitrary arc-length function). -/

/-- The source's `_gap(v)`: minimum non-negative bumper-to-bumper gap to a vehicle ahead
in the same arm, lane and approach phase; `none` models `Infinity`.
The caller passes the other vehicles (the source skips `o === v`). -/
def gapAhead (v : Veh) (others : List Veh) : Option ℚ :=
  others.foldl
    (fun best o =>
      if o.dir = v.dir ∧ o.lane = v.lane ∧ o.phase = VPhase.approach then
        let gap : ℚ :=
          match v.dir with
          | .north => v.y - o.y - CAR_L
          | .south => o.y - v.y - CAR_L
          | .east => o.x - v.x - CAR_L
          | .west => v.x - o.x - CAR_L
        if 0 ≤ gap ∧ (match best with | none => true | some b => decide (gap < b)) = true then
          some gap
        else best
      else best)
    none

/-- The test `_gap(v) < CONFIG.CAR_GAP` (false at `Infinity`). -/
def gapSmall (v : Veh) (others : List Veh) : Bool :=
  match gapAhead v others with
  | none => false
  | some g => decide (g < CAR_GAP)

/-- One `CAR_SPD` step along the approach travel axis. -/
def stepApproach (v : Veh) : Veh :=
  match v.dir with
  | .north => { v with y := v.y - CAR_SPD }
  | .south => { v with y := v.y + CAR_SPD }
  | .east => { v with x := v.x + CAR_SPD }
  | .west => { v with x := v.x - CAR_SPD }

/-- The source's `Simulation._approach(v, dt)`: halt-and-wait at the stop line on red,
halt without wait on an insufficient gap, otherwise advance one step and
enter the turning phase when past the stop line on green. -/
def approachStep (bezLenF : Path → ℚ) (light : TL) (others : List Veh)
    (dt : ℚ) (v : Veh) : Veh :=
  let green := light.canGo v.dir v.move
  let atStop := pastStop v
  if atStop = true ∧ green = false then
    { v with stopped := true, waiting := true, waitSec := v.waitSec + dt }
  else if gapSmall v others then
    { v with stopped := true, waiting := false }
  else
    let v1 := stepApproach { v with stopped := false, waiting := false }
    if pastStop v1 = true ∧ green = true then
      let (v2, path) := buildPath v1
      let p := bezAt path 0
      { v2 with phase := .turning, turnPath := path, pLen := bezLenF path
                turnT := 0, x := p.x, y := p.y }
    else v1

/-- The source's `Simulation._turn(v)`: advance the path parameter by `CAR_SPD / _pLen`;
at the end of the path enter the exit phase and snap to the exit lane. -/
def turnStep (v : Veh) : Veh :=
  let t := min 1 (v.turnT + CAR_SPD / v.pLen)
  let p := bezAt v.turnPath t
  let v1 := { v with turnT := t, x := p.x, y := p.y }
  if 1 ≤ t then
    let v2 := { v1 with phase := VPhase.exit }
    if v.exitDir == .north || v.exitDir == .south then
      { v2 with x := exitLaneX v.exitDir v.exitLane }
    else
      { v2 with y := exitLaneY v.exitDir v.exitLane }
  else v1

/-- One `CAR_SPD` step along the exit travel axis. -/
def stepExit (v : Veh) : Veh :=
  match v.exitDir with
  | .north => { v with y := v.y - CAR_SPD }
  | .south => { v with y := v.y + CAR_SPD }
  | .east => { v with x := v.x + CAR_SPD }
  | .west => { v with x := v.x - CAR_SPD }

/-- The out-of-bounds test of `_exit`. -/
def outOfBounds (v : Veh) : Bool :=
  decide (v.x < -50) || decide (v.x > CANVAS_W + 50) ||
  decide (v.y < -50) || decide (v.y > CANVAS_W + 50)

/-- The source's `Simulation._exit(v)`: advance; once out of bounds mark done and return
the accounting delta (passed-count increment, added wait seconds). -/
def exitStep (v : Veh) : Veh × ℕ × ℚ :=
  let v1 := stepExit v
  if outOfBounds v1 then ({ v1 with done := true }, 1, v.waitSec)
  else (v1, 0, 0)

/-- The source's `Simulation._move(v, dt)`: dispatch on the lifecycle phase.  Only the
exit branch can touch the accumulators. -/
def moveVeh (bezLenF : Path → ℚ) (light : TL) (others : List Veh) (dt : ℚ)
    (v : Veh) : Veh × ℕ × ℚ :=
  match v.phase with
  | .exit => exitStep v
  | .turning => (turnStep v, 0, 0)
  | .approach => (approachStep bezLenF light others dt v, 0, 0)

/-- The vehicle loop of `Simulation.tick`: vehicles are updated in place one
at a time, so each sees the already-updated earlier vehicles and the
not-yet-updated later ones; done vehicles are skipped. -/
def processVehicles (bezLenF : Path → ℚ) (light : TL) (dt : ℚ) :
    List Veh → List Veh → ℕ × ℚ → List Veh × ℕ × ℚ
  | processed, [], acc => (processed, acc)
  | processed, v :: rest, acc =>
    if v.done then processVehicles bezLenF light dt (processed ++ [v]) rest acc
    else
      let r := moveVeh bezLenF light (processed ++ rest) dt v
      processVehicles bezLenF light dt (processed ++ [r.1]) rest
        (acc.1 + r.2.1, acc.2 + r.2.2)

/-- The accumulator state of one `Simulation` instance. -/
structure SimSt where
  light : TL
  vehicles : List Veh
  simTime : ℚ
  totalPassed : ℕ
  totalWaitSec : ℚ
  passedCount : ℕ

/-- The source's `Simulation.tick(dt)`: advance the clock and the light, move every
not-done vehicle, then drop done vehicles. -/
def simTick (bezLenF : Path → ℚ) (s : SimSt) (dt : ℚ) : SimSt :=
  let light' := (s.light.tick dt).1
  let r := processVehicles bezLenF light' dt [] s.vehicles (0, 0)
  { light := light'
    vehicles := r.1.filter fun v => !v.done
    simTime := s.simTime + dt
    totalPassed := s.totalPassed + r.2.1
    totalWaitSec := s.totalWaitSec + r.2.2
    passedCount := s.passedCount + r.2.1 }

/-- The source's `avgWait()`: total accumulated wait over passed count, 0 when none. -/
def avgWait (s : SimSt) : ℚ :=
  if s.passedCount = 0 then 0 else s.totalWaitSec / s.passedCount

/-- Whether a vehicle completes exit → done on the current tick. -/
def exitsThisTick (v : Veh) : Bool :=
  !v.done && decide (v.phase = VPhase.exit) && outOfBounds (stepExit v)

/-! ## Derived notions for the stop-line property -/

/-- How far the front bumper is at-or-past the stop line, measured along the
travel direction (`pastStop v = true` iff `0 ≤ pastAmount v`). -/
def pastAmount (v : Veh) : ℚ :=
  let s := stopCoordVal v.dir
  let half := CAR_L * (1/2)
  match v.dir with
  | .north => s - (v.y - half)
  | .south => (v.y + half) - s
  | .east => (v.x + half) - s
  | .west => s - (v.x - half)

/-- The stop-line safety invariant: an approach-phase vehicle is never more
than one movement step past the stop line. -/
def redSafe (v : Veh) : Prop :=
  v.phase = VPhase.approach → pastAmount v < CAR_SPD

/-- One tick's worth of inputs to a single vehicle's `_move`. -/
structure MoveCtx where
  light : TL
  others : List Veh
  dt : ℚ

/-- Fold a vehicle through a sequence of per-tick `_move` calls. -/
def moveSteps (bezLenF : Path → ℚ) (steps : List MoveCtx) (v : Veh) : Veh :=
  steps.foldl (fun v c => (moveVeh bezLenF c.light c.others c.dt v).1) v

/-- A reachable controller state whose active phase is `e` (so that
north-straight is red): the fresh controller one full cycle later. -/
def lightE : TL := { TL.init with phaseKey := Phase.e }

/-- A northbound straight vehicle whose front bumper sits 0.1 px before the
stop line (stop value 327.5, front at 327.6). -/
def vehNearStop : Veh := { mkVeh Dir.north 1 with y := 3361/10 }

/-! ## The exit-mapping table: code side and spec side -/

/-- The lateral coordinate a vehicle is snapped to when the turn ends
(`_turn`'s exit-lane snap), as a function of entry arm and lane. -/
def exitSnapCoord (dir : Dir) (lane : Fin 3) : ℚ :=
  let exDir := exitDirMap dir lane
  let exLane := exitLaneMap dir lane
  if exDir == .north || exDir == .south then exitLaneX exDir exLane
  else exitLaneY exDir exLane

/-- Modelled from the spec: the exit arm of the fixed table, "rotating
clockwise per arm" — the left-turn arm for a left, the same arm for a
straight, the right-turn arm for a right. -/
def specExitDir (dir : Dir) (move : Move) : Dir :=
  match move with
  | .left => leftD dir
  | .straight => dir
  | .right => rightD dir

/-- Modelled from the spec: the local exit-lane index of the fixed table
(left → outer = 2, straight → middle = 1, right → inner = 0). -/
def specExitLaneIdx (move : Move) : ℤ :=
  match move with
  | .left => 2
  | .straight => 1
  | .right => 0

/-- Modelled from the spec: the lateral coordinate of the table's exit lane
on the exit arm, using the program's own exit-lane geometry. -/
def specExitCoord (dir : Dir) (move : Move) : ℚ :=
  let exDir := specExitDir dir move
  if exDir == .north || exDir == .south then
    exitLaneX exDir (specExitLaneIdx move)
  else exitLaneY exDir (specExitLaneIdx move)

/-! # Theorems -/

/-- C1, claim as stated, is false: in single-arm phase `n` (North all lanes
green), the perpendicular East arm's left movement is green as well, so two
perpendicular arms hold simultaneously green movements. -/
theorem phase_conflict_counterexample :
    ¬ (∀ (ph : Phase) (a1 a2 : Dir) (m1 m2 : Move), perp a1 a2 = true →
        ¬(phaseAllows ph a1 m1 = true ∧ phaseAllows ph a2 m2 = true)) := by
  intro h
  exact h Phase.n Dir.north Dir.east Move.straight Move.left (by decide)
    ⟨by decide, by decide⟩

/-- C1 (amended): the six paired-axis phases are fully conflict-free across
perpendicular arms; in every phase, any simultaneously green movement pair
on perpendicular arms involves a left movement (the single-arm phases turn
all other arms' left lanes green by construction). -/
theorem phase_conflict_amended :
    (∀ (ph : Phase) (a1 a2 : Dir) (m1 m2 : Move), isSingleArm ph = false →
        perp a1 a2 = true →
        ¬(phaseAllows ph a1 m1 = true ∧ phaseAllows ph a2 m2 = true)) ∧
    (∀ (ph : Phase) (a1 a2 : Dir) (m1 m2 : Move), perp a1 a2 = true →
        phaseAllows ph a1 m1 = true → phaseAllows ph a2 m2 = true →
        m1 = Move.left ∨ m2 = Move.left) := by
  constructor
  · decide
  · decide

/-- Witness for `phase_conflict_amended` at phase `ns_s` and the concrete
green pair of phase `n`. -/
theorem phase_conflict_amended_witness :
    (isSingleArm Phase.ns_s = false ∧ perp Dir.north Dir.east = true ∧
      ¬(phaseAllows Phase.ns_s Dir.north Move.straight = true ∧
        phaseAllows Phase.ns_s Dir.east Move.straight = true)) ∧
    (Move.straight = Move.left ∨ Move.left = Move.left) :=
  ⟨⟨by decide, by decide,
      phase_conflict_amended.1 Phase.ns_s Dir.north Dir.east Move.straight
        Move.straight (by decide) (by decide)⟩,
    phase_conflict_amended.2 Phase.n Dir.north Dir.east Move.straight
      Move.left (by decide) (by decide) (by decide)⟩

/-- C8, claim as stated, is false: a straight-through vehicle entering from
the north arm is snapped to x = 230 (the middle lane of the approach half),
not to the middle exit lane of the north exit arm at x = 290. -/
theorem exit_mapping_counterexample :
    exitDirMap Dir.north 1 = specExitDir Dir.north (LANE_MOVE 1) ∧
    exitSnapCoord Dir.north 1 = 230 ∧
    specExitCoord Dir.north (LANE_MOVE 1) = 290 ∧
    exitSnapCoord Dir.north 1 ≠ specExitCoord Dir.north (LANE_MOVE 1) := by
  refine ⟨by decide, ?_, ?_, ?_⟩ <;>
    simp +decide [exitSnapCoord, exitDirMap, exitLaneMap, specExitCoord,
      specExitDir, specExitLaneIdx, LANE_MOVE, exitLaneX, exitLaneY, MID,
      CANVAS_W, LANE_W, N_LANES] <;> norm_num

/-- C8 (amended): for each of the 4 entry arms × 3 movements the exit arm
matches the fixed table (left-turn arm / same arm / right-turn arm), and the
produced exit-lane coordinate matches the table's lane (left → outer,
straight → middle, right → inner) exactly for exits onto the east/west
arms, while for exits onto the north/south arms it is the mirror image
(2·MID − coordinate) of the table's lane, i.e. the same lateral offset on
the approach half of the road instead of the exit half. -/
theorem exit_mapping_amended :
    ∀ (d : Dir) (l : Fin 3),
      exitDirMap d l = specExitDir d (LANE_MOVE l) ∧
      exitSnapCoord d l =
        (if (exitDirMap d l == Dir.north || exitDirMap d l == Dir.south) = true
         then 2 * MID - specExitCoord d (LANE_MOVE l)
         else specExitCoord d (LANE_MOVE l)) := by
  intro d l
  refine ⟨by revert d l; decide, ?_⟩
  fin_cases d <;> fin_cases l <;>
    simp +decide [exitSnapCoord, exitDirMap, exitLaneMap, specExitCoord,
      specExitDir, specExitLaneIdx, LANE_MOVE, leftD, rightD, exitLaneX,
      exitLaneY, MID, CANVAS_W, LANE_W, N_LANES] <;> norm_num

/-- The clockwise successor in the 4-member single-arm rotation
N → E → S → W → N (identity outside the rotation). -/
def cwSuccPhase : Phase → Phase
  | .n => .e | .e => .s | .s => .w | .w => .n | p => p

/-- C3: `TrafficMaster` is deterministic — two instances whose observable
state (seed, schedule queue, clock) agrees produce, under any identical
sequence of `tick`/`injectDir`/`bulkAdd` calls, element-for-element
identical event lists from every `tick` call. -/
theorem trafficmaster_deterministic :
    ∀ (m1 m2 : TM), m1.seed = m2.seed → m1.queue = m2.queue → m1.t = m2.t →
      ∀ calls : List TMCall, (TM.run m1 calls).2 = (TM.run m2 calls).2 := by
  intro m1 m2 hs hq ht calls
  obtain ⟨s1, q1, t1⟩ := m1
  obtain ⟨s2, q2, t2⟩ := m2
  cases hs; cases hq; cases ht
  rfl

/-- Witness for `trafficmaster_deterministic`: two freshly constructed
instances (same seed 1337) driven by the same concrete call sequence. -/
theorem trafficmaster_deterministic_witness :
    TM.init.seed = TM.init.seed ∧
    (TM.run TM.init
        [TMCall.injectDir Dir.north, TMCall.tick 1,
         TMCall.bulkAdd BulkDir.all 2, TMCall.tick (1/2)]).2 =
      (TM.run TM.init
        [TMCall.injectDir Dir.north, TMCall.tick 1,
         TMCall.bulkAdd BulkDir.all 2, TMCall.tick (1/2)]).2 :=
  ⟨rfl,
    trafficmaster_deterministic TM.init TM.init rfl rfl rfl
      [TMCall.injectDir Dir.north, TMCall.tick 1,
       TMCall.bulkAdd BulkDir.all 2, TMCall.tick (1/2)]⟩

/-- The phase id chosen by `_callAI` is the deterministic clockwise-next id,
whatever the remote outcome was. -/
theorem callAIDecision_fst (q : LaneQ) (ctx : Option Phase) (r : AIOutcome) :
    (callAIDecision q ctx r).1 = fixedNextId (curIdOf ctx) := by
  cases r with
  | noUrl => rfl
  | transportErr => rfl
  | ok resp =>
    cases h : resp.duration with
    | none => simp [callAIDecision, h]
    | some raw =>
      simp only [callAIDecision, h]
      split <;> split <;> rfl

/-- C4: on every `_callAI` invocation the phase id passed to `setNextPhase`
does not depend on the remote response, and when the ended phase is one of
the four single-arm phases it equals the clockwise successor's id in the
rotation N → E → S → W. -/
theorem callAI_next_phase_clockwise :
    ∀ (q : LaneQ) (ctx : Option Phase) (r r' : AIOutcome) (ph : Phase),
      (callAIDecision q ctx r).1 = (callAIDecision q ctx r').1 ∧
      (ctx = some ph → isSingleArm ph = true →
        (callAIDecision q ctx r).1 = phaseIdOf (cwSuccPhase ph)) := by
  intro q ctx r r' ph
  constructor
  · rw [callAIDecision_fst, callAIDecision_fst]
  · rintro rfl hsingle
    rw [callAIDecision_fst]
    cases ph <;> first
      | rfl
      | exact absurd hsingle (by decide)

/-- Witness for `callAI_next_phase_clockwise`: ended phase `n` (id 1), a
response proposing `next_phase = 3`; the chosen id is still 2 = East. -/
theorem callAI_next_phase_clockwise_witness :
    (some Phase.n = some Phase.n ∧ isSingleArm Phase.n = true) ∧
    (callAIDecision (fun _ _ => 0) (some Phase.n)
        (AIOutcome.ok ⟨some 30, some true, some 3⟩)).1 =
      phaseIdOf (cwSuccPhase Phase.n) :=
  ⟨⟨rfl, by decide⟩,
    (callAI_next_phase_clockwise (fun _ _ => 0) (some Phase.n)
        (AIOutcome.ok ⟨some 30, some true, some 3⟩)
        AIOutcome.noUrl Phase.n).2 rfl (by decide)⟩

/-- C5: the heuristic target equals `clamp(round(8 + demand×1.8), 5, 45)`,
it lies in [5, 45] for every demand value, and every fallback branch of
`_callAI` (unconfigured URL, transport error/timeout, non-numeric duration)
applies exactly this target. -/
theorem heuristic_duration_spec :
    ∀ (q : LaneQ) (ctx : Option Phase),
      (∀ r : AIOutcome,
        (r = .noUrl ∨ r = .transportErr ∨
          ∃ resp, r = .ok resp ∧ resp.duration = none) →
        (callAIDecision q ctx r).2 = targetDurOf q ctx) ∧
      targetDurOf q ctx =
        clampI (jsRound (8 + demand q (fixedNextId (curIdOf ctx)) * (9/5))) 5 45 ∧
      (∀ load : ℚ, 5 ≤ heurDur load ∧ heurDur load ≤ 45) := by
  intro q ctx
  refine ⟨?_, rfl, ?_⟩
  · rintro r (rfl | rfl | ⟨resp, rfl, hd⟩)
    · rfl
    · rfl
    · simp [callAIDecision, hd]
  · intro load
    refine ⟨le_max_left _ _, ?_⟩
    exact max_le (by norm_num) (min_le_left _ _)

/-- Witness for `heuristic_duration_spec`: the transport-error fallback on
empty queues applies the heuristic target. -/
theorem heuristic_duration_spec_witness :
    (AIOutcome.transportErr = AIOutcome.noUrl ∨
      AIOutcome.transportErr = AIOutcome.transportErr ∨
      ∃ resp, AIOutcome.transportErr = AIOutcome.ok resp ∧
        resp.duration = none) ∧
    (callAIDecision (fun _ _ => 0) none AIOutcome.transportErr).2 =
      targetDurOf (fun _ _ => 0) none :=
  ⟨Or.inr (Or.inl rfl),
    (heuristic_duration_spec (fun _ _ => 0) none).1 AIOutcome.transportErr
      (Or.inr (Or.inl rfl))⟩

/-- C6, claim as stated, is false: the GREEN→YELLOW transition of
`TrafficLight.tick` fires no notification (ticking the fresh controller past
its 15 s green yields yellow and no event); the notification fires one
sub-phase later, at YELLOW→ALL_RED, carrying the ending phase's key. -/
theorem phase_end_counterexample :
    TL.init.subPhase = SubPhase.green ∧
    (TL.init.tick 20).1.subPhase = SubPhase.yellow ∧
    (TL.init.tick 20).2 = none ∧
    ((TL.init.tick 20).1.tick 3).2 = some Phase.n := by
  refine ⟨rfl, ?_, ?_, ?_⟩ <;>
    norm_num [TL.tick, TL.init, TL.curDur, FIXED_GREEN, YELLOW_DUR]

/-- C6 (amended): the phase-end notification fires exactly at the
YELLOW→ALL_RED sub-phase transition of `tick`, and carries the ending
phase's key; no other transition fires it. -/
theorem phase_end_fires_at_yellow_to_allred :
    ∀ (l : TL) (dt : ℚ),
      (l.tick dt).2 =
        if l.subPhase = SubPhase.yellow ∧ YELLOW_DUR ≤ l.timer + dt
        then some l.phaseKey else none := by
  intro l dt
  cases h : l.subPhase with
  | green =>
    simp only [TL.tick, TL.curDur, h]
    split <;> simp
  | yellow =>
    simp only [TL.tick, TL.curDur, h]
    split
    next h2 => simp [not_le.mpr h2]
    next h2 => simp [not_lt.mp h2]
  | allred =>
    simp only [TL.tick, TL.curDur, h]
    split
    · simp
    · cases l.nextOverride <;> simp

/-- C7, claim as stated, is false: `setNextPhase` with a **valid** phase id
and the out-of-range duration 1000 is not a no-op — the stored green
duration for phase `n` changes from 15 to the clamped 60 and a pending
override is recorded. -/
theorem setNextPhase_counterexample :
    (TL.init.setNextPhase (PhaseArg.str (some Phase.n)) (some 1000)).greenDur
        Phase.n = 60 ∧
    TL.init.greenDur Phase.n = 15 ∧
    (TL.init.setNextPhase (PhaseArg.str (some Phase.n))
        (some 1000)).nextOverride = some Phase.n ∧
    TL.init.nextOverride = none := by
  refine ⟨?_, rfl, ?_, rfl⟩ <;>
    norm_num [TL.setNextPhase, TL.init, resolvePhase, numberOr15, jsRound,
      FIXED_GREEN, Int.floor_eq_iff]

/-- C7 (amended): `setNextPhase` with an unknown phase id is a no-op (the
whole prior controller state is retained); with a known phase id, any
duration — out-of-range or non-numeric — is not rejected but clamped into
[5, 60] and applied: that phase's green duration is set to the clamp,
the pending override is recorded, and every other piece of state (other
phases' durations, current phase, sub-phase, timer, rotation index) is
unchanged. -/
theorem setNextPhase_amended :
    ∀ (l : TL) (pid : PhaseArg) (dur : Option ℚ),
      (resolvePhase pid = none → l.setNextPhase pid dur = l) ∧
      (∀ k, resolvePhase pid = some k →
        (l.setNextPhase pid dur).greenDur k =
          ((max 5 (min 60 (jsRound (numberOr15 dur))) : ℤ) : ℚ) ∧
        5 ≤ (l.setNextPhase pid dur).greenDur k ∧
        (l.setNextPhase pid dur).greenDur k ≤ 60 ∧
        (l.setNextPhase pid dur).nextOverride = some k ∧
        (l.setNextPhase pid dur).subPhase = l.subPhase ∧
        (l.setNextPhase pid dur).timer = l.timer ∧
        (l.setNextPhase pid dur).seqIdx = l.seqIdx ∧
        (l.setNextPhase pid dur).phaseKey = l.phaseKey ∧
        (∀ p, p ≠ k → (l.setNextPhase pid dur).greenDur p = l.greenDur p)) := by
  intro l pid dur
  constructor
  · intro h
    unfold TL.setNextPhase
    rw [h]
  · intro k hk
    unfold TL.setNextPhase
    rw [hk]
    refine ⟨?_, ?_, ?_, rfl, rfl, rfl, rfl, rfl, ?_⟩
    · simp
    · simp only [eq_self_iff_true, if_true]
      exact_mod_cast le_max_left 5 (min 60 (jsRound (numberOr15 dur)))
    · simp only [eq_self_iff_true, if_true]
      exact_mod_cast max_le (by norm_num) (min_le_left 60 (jsRound (numberOr15 dur)))
    · intro p hp
      simp [if_neg hp]

/-- Witness for `setNextPhase_amended`: the unknown numeric id 99 is a
no-op on the fresh controller, and the valid key `e` with a non-numeric
duration stores the default 15. -/
theorem setNextPhase_amended_witness :
    (resolvePhase (PhaseArg.num 99) = none ∧
      TL.init.setNextPhase (PhaseArg.num 99) (some 1000) = TL.init) ∧
    (resolvePhase (PhaseArg.str (some Phase.e)) = some Phase.e ∧
      (TL.init.setNextPhase (PhaseArg.str (some Phase.e)) none).nextOverride =
        some Phase.e) :=
  ⟨⟨by decide,
      (setNextPhase_amended TL.init (PhaseArg.num 99) (some 1000)).1 (by decide)⟩,
    ⟨rfl,
      ((setNextPhase_amended TL.init (PhaseArg.str (some Phase.e)) none).2
          Phase.e rfl).2.2.2.1⟩⟩

/-- The source's `tick` never changes the stored per-phase green durations. -/
theorem TL.tick_greenDur (l : TL) (dt : ℚ) :
    ((l.tick dt).1).greenDur = l.greenDur := by
  cases h : l.subPhase <;> cases ho : l.nextOverride <;>
    simp only [TL.tick, TL.curDur, h, ho] <;>
      split <;> first | rfl | (split <;> rfl)

/-- The per-phase duration invariant: all stored green durations in [5,60]. -/
def durInv (l : TL) : Prop := ∀ ph, 5 ≤ l.greenDur ph ∧ l.greenDur ph ≤ 60

/-- The source's `setNextPhase` preserves the duration invariant. -/
theorem setNextPhase_durInv (l : TL) (pid : PhaseArg) (dur : Option ℚ)
    (h : durInv l) : durInv (l.setNextPhase pid dur) := by
  intro ph
  unfold TL.setNextPhase
  cases hk : resolvePhase pid with
  | none => exact h ph
  | some k =>
    simp only
    by_cases hp : ph = k
    · simp only [if_pos hp]
      constructor
      · exact_mod_cast le_max_left 5 (min 60 (jsRound (numberOr15 dur)))
      · exact_mod_cast max_le (by norm_num)
          (min_le_left 60 (jsRound (numberOr15 dur)))
    · simp only [if_neg hp]
      exact h ph

/-- Any run of `tick`/`setNextPhase` calls preserves the invariant. -/
theorem run_durInv (calls : List TLCall) (l : TL) (h : durInv l) :
    durInv (l.run calls) := by
  induction calls generalizing l with
  | nil => exact h
  | cons c cs ih =>
    cases c with
    | tick dt =>
      exact ih _ (by rw [durInv, TL.tick_greenDur]; exact h)
    | setNext p d => exact ih _ (setNextPhase_durInv l p d h)

/-- C10: after construction every per-phase green duration is 15 s, and
after any sequence of `tick`/`setNextPhase` calls with arbitrary (even
non-numeric) duration arguments every stored green duration lies in
[5, 60] s — in particular the green sub-phase's target duration is always
positive, so the state machine cannot stall on a zero or negative
duration. -/
theorem greenDur_invariant :
    ∀ calls : List TLCall,
      (∀ ph, TL.init.greenDur ph = 15) ∧
      (∀ ph, 5 ≤ (TL.init.run calls).greenDur ph ∧
        (TL.init.run calls).greenDur ph ≤ 60 ∧
        0 < (TL.init.run calls).greenDur ph) := by
  intro calls
  have hinit : durInv TL.init := by
    intro ph
    constructor <;> norm_num [TL.init, FIXED_GREEN]
  have h := run_durInv calls TL.init hinit
  refine ⟨fun ph => rfl, fun ph => ⟨(h ph).1, (h ph).2, ?_⟩⟩
  calc (0 : ℚ) < 5 := by norm_num
    _ ≤ _ := (h ph).1

/-- The accounting delta of a single `_move` call: `(1, waitSec)` exactly
when the vehicle is in the exit phase and this step carries it out of
bounds, `(0, 0)` otherwise — whatever the light and the other vehicles. -/
theorem moveVeh_delta (bezLenF : Path → ℚ) (light : TL) (others : List Veh)
    (dt : ℚ) (v : Veh) :
    (moveVeh bezLenF light others dt v).2 =
      if v.phase = VPhase.exit ∧ outOfBounds (stepExit v) = true
      then (1, v.waitSec) else (0, 0) := by
  cases hp : v.phase with
  | approach => simp [moveVeh, hp]
  | turning => simp [moveVeh, hp]
  | exit =>
    simp only [moveVeh, hp, exitStep]
    by_cases hb : outOfBounds (stepExit v) = true
    · simp [hb]
    · simp [hb]

/-- The folded accumulator of the vehicle loop equals the starting
accumulator plus one unit and one wait amount per vehicle completing
exit → done on this tick. -/
theorem processVehicles_acc (bezLenF : Path → ℚ) (light : TL) (dt : ℚ) :
    ∀ (rest processed : List Veh) (acc : ℕ × ℚ),
      (processVehicles bezLenF light dt processed rest acc).2 =
        (acc.1 + (rest.filter exitsThisTick).length,
         acc.2 + ((rest.filter exitsThisTick).map Veh.waitSec).sum) := by
  intro rest
  induction rest with
  | nil => intro processed acc; simp [processVehicles]
  | cons v rest ih =>
    intro processed acc
    cases hdone : v.done with
    | true =>
      have hex : exitsThisTick v = false := by simp [exitsThisTick, hdone]
      simp only [processVehicles, hdone, eq_self_iff_true, if_true,
        List.filter_cons, hex, Bool.false_eq_true, if_false]
      exact ih _ _
    | false =>
      simp only [processVehicles, hdone, Bool.false_eq_true, if_false]
      rw [moveVeh_delta]
      by_cases hc : v.phase = VPhase.exit ∧ outOfBounds (stepExit v) = true
      · have hex : exitsThisTick v = true := by
          simp [exitsThisTick, hdone, hc.1, hc.2, beq_iff_eq]
        rw [if_pos hc, ih]
        simp only [List.filter_cons, hex, if_true, List.length_cons,
          List.map_cons, List.sum_cons, Prod.mk.injEq]
        constructor
        · omega
        · ring
      · have hoob : v.phase ≠ VPhase.exit ∨ outOfBounds (stepExit v) = false := by
          rcases Decidable.not_and_iff_or_not.mp hc with h1 | h2
          · exact Or.inl h1
          · exact Or.inr (by revert h2; cases outOfBounds (stepExit v) <;> simp)
        have hex : exitsThisTick v = false := by
          rcases hoob with h1 | h2
          · simp [exitsThisTick, beq_iff_eq, h1]
          · simp [exitsThisTick, h2]
        rw [if_neg hc, ih]
        simp only [List.filter_cons, hex, Bool.false_eq_true, if_false]
        simp

/-- C9: a `Simulation.tick` increases the passed counters by exactly the
number of vehicles completing exit → done this tick and the total wait by
exactly those vehicles' accumulated waits (so on ticks where no vehicle
exits, both accumulators are unchanged), and average wait is total wait
over passed count, 0 when no vehicle has passed. -/
theorem wait_accounting (bezLenF : Path → ℚ) (s : SimSt) (dt : ℚ) :
    (simTick bezLenF s dt).passedCount =
        s.passedCount + (s.vehicles.filter exitsThisTick).length ∧
    (simTick bezLenF s dt).totalPassed =
        s.totalPassed + (s.vehicles.filter exitsThisTick).length ∧
    (simTick bezLenF s dt).totalWaitSec =
        s.totalWaitSec +
          ((s.vehicles.filter exitsThisTick).map Veh.waitSec).sum ∧
    avgWait (simTick bezLenF s dt) =
      (if (simTick bezLenF s dt).passedCount = 0 then 0
       else (simTick bezLenF s dt).totalWaitSec /
         ((simTick bezLenF s dt).passedCount : ℚ)) := by
  refine ⟨?_, ?_, ?_, rfl⟩ <;>
    · simp only [simTick]
      rw [processVehicles_acc]
      simp

/-- The source's `pastStop` is the sign test of `pastAmount`. -/
theorem pastStop_iff (v : Veh) : pastStop v = true ↔ 0 ≤ pastAmount v := by
  cases h : v.dir <;>
    simp [pastStop, pastAmount, h, sub_nonneg, ge_iff_le]

/-- The source's `pastAmount` ignores the stopped/waiting/waitSec bookkeeping fields. -/
theorem pastAmount_flags (v : Veh) (st wa : Bool) (ws : ℚ) :
    pastAmount { v with stopped := st, waiting := wa, waitSec := ws } =
      pastAmount v := by
  cases h : v.dir <;> simp [pastAmount, h]

/-- One approach movement step increases `pastAmount` by exactly `CAR_SPD`. -/
theorem pastAmount_stepApproach (v : Veh) :
    pastAmount (stepApproach v) = pastAmount v + CAR_SPD := by
  cases h : v.dir <;> simp [pastAmount, stepApproach, h] <;> ring

/-- The source's `stepApproach` changes only the position. -/
theorem stepApproach_phase (v : Veh) : (stepApproach v).phase = v.phase := by
  cases h : v.dir <;> simp [stepApproach, h]

/-- The source's `stepApproach` keeps the arm. -/
theorem stepApproach_dir (v : Veh) : (stepApproach v).dir = v.dir := by
  cases h : v.dir <;> simp [stepApproach, h]

/-- A turning vehicle is still turning or has entered exit after `_turn`. -/
theorem turnStep_phase (v : Veh) (hv : v.phase = VPhase.turning) :
    (turnStep v).phase = VPhase.turning ∨ (turnStep v).phase = VPhase.exit := by
  unfold turnStep
  by_cases h : (1 : ℚ) ≤ min 1 (v.turnT + CAR_SPD / v.pLen)
  · rw [if_pos h]
    right
    split <;> rfl
  · rw [if_neg h]
    left
    exact hv

/-- The source's `stepExit` changes only the position. -/
theorem stepExit_phase (v : Veh) : (stepExit v).phase = v.phase := by
  cases h : v.exitDir <;> simp [stepExit, h]

/-- The source's `_exit` never leaves the exit phase. -/
theorem exitStep_phase (v : Veh) : ((exitStep v).1).phase = v.phase := by
  unfold exitStep
  by_cases h : outOfBounds (stepExit v) = true
  · rw [if_pos h]
    show ({ stepExit v with done := true }).phase = v.phase
    simp [stepExit_phase]
  · rw [if_neg h]
    exact stepExit_phase v

/-- The source's `pastAmount` also ignores a stopped/waiting-only update. -/
theorem pastAmount_flags2 (v : Veh) (st wa : Bool) :
    pastAmount { v with stopped := st, waiting := wa } = pastAmount v := by
  cases h : v.dir <;> simp [pastAmount, h]

/-- One `_approach` call preserves the stop-line bound for a vehicle that
stays in the approach phase. -/
theorem approachStep_redSafe (bezLenF : Path → ℚ) (light : TL)
    (others : List Veh) (dt : ℚ) (v : Veh)
    (h : pastAmount v < CAR_SPD) :
    (approachStep bezLenF light others dt v).phase = VPhase.approach →
    pastAmount (approachStep bezLenF light others dt v) < CAR_SPD := by
  have hspd : (0 : ℚ) < CAR_SPD := by norm_num [CAR_SPD]
  intro hres
  unfold approachStep at hres ⊢
  by_cases h1 : pastStop v = true ∧ light.canGo v.dir v.move = false
  · rw [if_pos h1] at hres ⊢
    rw [pastAmount_flags]
    exact h
  · rw [if_neg h1] at hres ⊢
    by_cases h2 : gapSmall v others = true
    · rw [if_pos h2] at hres ⊢
      rw [pastAmount_flags2]
      exact h
    · rw [if_neg h2] at hres ⊢
      by_cases h3 :
          pastStop (stepApproach { v with stopped := false, waiting := false })
              = true ∧
            light.canGo v.dir v.move = true
      · rw [if_pos h3] at hres
        simp at hres
      · rw [if_neg h3] at hres ⊢
        have hpa1 :
            pastAmount
                (stepApproach { v with stopped := false, waiting := false }) =
              pastAmount v + CAR_SPD := by
          rw [pastAmount_stepApproach, pastAmount_flags2]
        rw [hpa1]
        by_cases hg : light.canGo v.dir v.move = true
        · have hps :
              pastStop (stepApproach
                { v with stopped := false, waiting := false }) ≠ true :=
            fun hp => h3 ⟨hp, hg⟩
          have hneg :
              ¬ (0 ≤ pastAmount
                (stepApproach { v with stopped := false, waiting := false })) :=
            fun hge => hps ((pastStop_iff _).mpr hge)
          rw [hpa1] at hneg
          linarith [not_le.mp hneg]
        · have hg' : light.canGo v.dir v.move = false := by
            revert hg
            cases light.canGo v.dir v.move <;> simp
          have hps : pastStop v ≠ true := fun hp => h1 ⟨hp, hg'⟩
          have hneg : ¬ (0 ≤ pastAmount v) :=
            fun hge => hps ((pastStop_iff v).mpr hge)
          linarith [not_le.mp hneg]

/-- One `_move` call preserves the stop-line invariant. -/
theorem moveVeh_redSafe (bezLenF : Path → ℚ) (light : TL) (others : List Veh)
    (dt : ℚ) (v : Veh) (h : redSafe v) :
    redSafe (moveVeh bezLenF light others dt v).1 := by
  intro hres
  cases hp : v.phase with
  | approach =>
    simp only [moveVeh, hp] at hres ⊢
    exact approachStep_redSafe bezLenF light others dt v (h hp) hres
  | turning =>
    exfalso
    simp only [moveVeh, hp] at hres
    rcases turnStep_phase v hp with ht | ht <;> rw [hres] at ht <;> cases ht
  | exit =>
    exfalso
    simp only [moveVeh, hp] at hres
    rw [exitStep_phase v, hp] at hres
    cases hres

/-- Any sequence of `_move` calls preserves the stop-line invariant. -/
theorem moveSteps_redSafe (bezLenF : Path → ℚ) (steps : List MoveCtx)
    (v : Veh) (h : redSafe v) : redSafe (moveSteps bezLenF steps v) := by
  induction steps generalizing v with
  | nil => exact h
  | cons c cs ih =>
    simp only [moveSteps, List.foldl_cons]
    exact ih _ (moveVeh_redSafe bezLenF c.light c.others c.dt v h)

/-- A freshly spawned vehicle satisfies the stop-line invariant. -/
theorem mkVeh_redSafe (d : Dir) (lane : Fin 3) : redSafe (mkVeh d lane) := by
  intro _
  cases d <;>
    norm_num [mkVeh, pastAmount, spawnPos, laneX, laneY, stopCoordVal,
      CAR_L, CAR_SPD, BOX_HALF, MID, CANVAS_W, LANE_W, N_LANES]

/-- C2 (amended): (i) a spawned vehicle satisfies the stop-line invariant
and the invariant is preserved across any sequence of simulated ticks, so
an approach-phase vehicle's leading edge is never more than one movement
step (`CAR_SPD` = 1.6 px, less than the 3 px safety margin) past its arm's
stop coordinate — in particular it never enters the intersection box on
red; (ii) a vehicle at the stop line on red halts in place and accrues
`dt` of wait time; (iii) a vehicle halted only by an insufficient gap
halts in place and accrues no wait time. -/
theorem approach_red_safety :
    ∀ (bezLenF : Path → ℚ) (steps : List MoveCtx) (light : TL)
      (others : List Veh) (dt : ℚ) (v : Veh) (d : Dir) (lane : Fin 3),
      redSafe (mkVeh d lane) ∧
      (redSafe v → redSafe (moveSteps bezLenF steps v)) ∧
      (pastStop v = true → light.canGo v.dir v.move = false →
        approachStep bezLenF light others dt v =
          { v with stopped := true, waiting := true,
                   waitSec := v.waitSec + dt }) ∧
      (¬(pastStop v = true ∧ light.canGo v.dir v.move = false) →
        gapSmall v others = true →
        approachStep bezLenF light others dt v =
          { v with stopped := true, waiting := false }) := by
  intro bezLenF steps light others dt v d lane
  refine ⟨mkVeh_redSafe d lane, moveSteps_redSafe bezLenF steps v, ?_, ?_⟩
  · intro hstop hred
    unfold approachStep
    rw [if_pos ⟨hstop, hred⟩]
  · intro hne hgap
    unfold approachStep
    rw [if_neg hne, if_pos hgap]

/-- Witness for `approach_red_safety`: a northbound straight vehicle parked
at the stop line (y = 330, front bumper at 321.5 ≤ 327.5) while phase `e`
is green halts and accrues 1/60 s of wait. -/
theorem approach_red_safety_witness :
    (pastStop { mkVeh Dir.north 1 with y := 330 } = true ∧
      lightE.canGo Dir.north Move.straight = false) ∧
    approachStep (fun _ => 1) lightE [] (1/60)
        { mkVeh Dir.north 1 with y := 330 } =
      { { mkVeh Dir.north 1 with y := 330 } with
          stopped := true, waiting := true,
          waitSec := ({ mkVeh Dir.north 1 with y := 330 } : Veh).waitSec
            + 1/60 } :=
  ⟨⟨by norm_num [pastStop, mkVeh, stopCoordVal, CAR_L, BOX_HALF, MID,
      CANVAS_W], rfl⟩,
    (approach_red_safety (fun _ => 1) [] lightE [] (1/60)
        { mkVeh Dir.north 1 with y := 330 } Dir.north 1).2.2.1
      (by norm_num [pastStop, mkVeh, stopCoordVal, CAR_L, BOX_HALF, MID,
        CANVAS_W])
      rfl⟩

/-- C2, claim as stated, is false: a northbound straight vehicle whose
front bumper is 0.1 px short of the stop line moves a full 1.6 px step on a
red tick, ending the tick with its leading edge 1.5 px past the stop
coordinate while `canGo` is false, still in the approach phase. -/
theorem red_stop_counterexample :
    lightE.canGo vehNearStop.dir vehNearStop.move = false ∧
    vehNearStop.phase = VPhase.approach ∧
    pastStop vehNearStop = false ∧
    (approachStep (fun _ => 1) lightE [] (1/60) vehNearStop).phase =
      VPhase.approach ∧
    0 < pastAmount (approachStep (fun _ => 1) lightE [] (1/60) vehNearStop) := by
  have hpast : pastStop vehNearStop = false := by
    norm_num [pastStop, vehNearStop, mkVeh, stopCoordVal, CAR_L, BOX_HALF,
      MID, CANVAS_W]
  have hcan : lightE.canGo vehNearStop.dir vehNearStop.move = false := rfl
  have happ :
      approachStep (fun _ => 1) lightE [] (1/60) vehNearStop =
        stepApproach { vehNearStop with stopped := false, waiting := false } := by
    unfold approachStep
    rw [if_neg (by rw [hpast]; rintro ⟨hh, -⟩; cases hh)]
    rw [if_neg (by rw [show gapSmall vehNearStop [] = false from rfl]; simp)]
    rw [if_neg (by rintro ⟨-, hg⟩; rw [hcan] at hg; cases hg)]
  refine ⟨hcan, rfl, hpast, ?_, ?_⟩
  · rw [happ, stepApproach_phase]
    rfl
  · rw [happ]
    norm_num [pastAmount, stepApproach, vehNearStop, mkVeh, spawnPos, laneX,
      stopCoordVal, CAR_L, CAR_SPD, BOX_HALF, MID, CANVAS_W, LANE_W, N_LANES]

end TrafficAI
